import Mathlib

/-!
Shallow embedding of the threaded comment and notification engine of the
`no-more-problems` repository: `src/components/comments.py`,
`src/email_handler.py`, and the comment store helpers of
`src/no-more-problems.py`.

Modelling conventions: Python strings are Lean `String`s; Python `None` is
`Option.none`; the Supabase `comments` table (and the `st.secrets`
`user_emails` mapping) are association lists kept in row/iteration order;
`st.session_state.current_user` / `user_role` and the wall clock are
explicit arguments; the external ISO-8601 parser `datetime.fromisoformat`
is an abstract parameter `fromiso : String → Option Nat` (datetimes are
points on a discrete timeline, `datetime.min` being `0`); the exception
branches of the store adapters (network/DB failures caught by
`try/except`) are outside the model, which describes the exception-free
store path.
-/

/-- ASCII whitespace test, modelling the character class removed by Python
`str.strip()`. -/
def isSpaceC (c : Char) : Bool :=
  c == ' ' || c == '\t' || c == '\n' || c == '\r' || c == '\x0b' || c == '\x0c'

/-- Model of Python `str.strip()`: drop whitespace from both ends. -/
def pyStrip (s : String) : String :=
  String.mk (((s.data.dropWhile isSpaceC).reverse.dropWhile isSpaceC).reverse)

/-- Model of Python `str.lower()` (case folding, character by character). -/
def pyLower (s : String) : String := String.mk (s.data.map Char.toLower)

/-- Character-list helper for the Python substring operator: does the first
list start the second? -/
def startsWithL : List Char → List Char → Bool
  | [], _ => true
  | _ :: _, [] => false
  | a :: as, b :: bs => (a == b) && startsWithL as bs

/-- Character-list helper for the Python substring operator: does the first
list occur contiguously inside the second? -/
def containsL (needle : List Char) : List Char → Bool
  | [] => needle.isEmpty
  | b :: bs => startsWithL needle (b :: bs) || containsL needle bs

/-- Model of the Python substring test `needle in hay`. -/
def substrContains (needle hay : String) : Bool := containsL needle.data hay.data

/-- A Python value that can sit in a `created_at` field: `None`, an ISO
string, or an already-parsed `datetime` (a point on the timeline). -/
inductive TimeVal where
  | null : TimeVal
  | str : String → TimeVal
  | dt : Nat → TimeVal
deriving DecidableEq

/-- The smallest datetime, Python `datetime.min`. -/
def datetimeMin : Nat := 0

/-- Model of `timestamp.replace('Z', '+00:00')` in `parse_timestamp`. -/
def replaceZ (s : String) : String :=
  String.mk (s.data.flatMap (fun c => if c == 'Z' then "+00:00".data else [c]))

/-- `parse_timestamp` of `components/comments.py`: falsy input (Python
`None` or the empty string) yields `datetime.min`; a string is parsed with
the `Z` suffix rewritten, then as-is, falling back to `datetime.min` when
both attempts fail (the `except` arms); an already-parsed datetime passes
through. `fromiso` abstracts `datetime.fromisoformat`, with `none` for the
`ValueError` case. -/
def parse_timestamp (fromiso : String → Option Nat) : TimeVal → Nat
  | TimeVal.null => datetimeMin
  | TimeVal.str s =>
    if s.data.isEmpty then datetimeMin
    else
      match fromiso (replaceZ s) with
      | some d => d
      | none =>
        match fromiso s with
        | some d => d
        | none => datetimeMin
  | TimeVal.dt d => d

/-- A row of the `comments` table, in the shape built by
`handle_comment_submission` of `components/comments.py`. -/
structure Comment where
  entity_type : String
  entity_id : String
  user_name : String
  text : String
  created_at : TimeVal
  parent_id : Option String
  user_role : String
  resolved : Bool
  resolved_by : Option String
  resolved_at : Option String
deriving DecidableEq

/-- The comment store: rows of the `comments` table keyed by id, in row
order (Python dict insertion order for the per-entity dicts). -/
abbrev Store := List (String × Comment)

/-- Python truthiness of an optional string: `None` and `""` are falsy.
Used for the `if not comment.get('parent_id')` root test. -/
def falsyOptStr : Option String → Bool
  | none => true
  | some s => s.data.isEmpty

/-- Does some stored row carry this id? Models a Supabase `eq('id', cid)`
filter matching at least one row (`response.data` nonempty). -/
def storeHasId (store : Store) (cid : String) : Bool :=
  store.any (fun p => p.1 == cid)

/-- The per-row effect of the Supabase update issued by `resolve_comment`:
a row whose id matches gets `resolved`, `resolved_by` and `resolved_at`
set together; other rows are untouched. -/
def resolveRow (current_user now_iso cid : String) (p : String × Comment) :
    String × Comment :=
  if p.1 == cid then
    (p.1, { p.2 with resolved := true, resolved_by := some current_user,
                     resolved_at := some now_iso })
  else p

/-- The per-row effect of the Supabase update issued by
`unresolve_comment`: a matching row gets `resolved := false` and both
`resolved_by` and `resolved_at` cleared together. -/
def unresolveRow (cid : String) (p : String × Comment) : String × Comment :=
  if p.1 == cid then
    (p.1, { p.2 with resolved := false, resolved_by := none,
                     resolved_at := none })
  else p

/-- `resolve_comment` of `components/comments.py`: applies the resolution
update to every row whose id matches and reports success exactly when some
row matched (`response.data` nonempty). The session user and the clock
reading (`datetime.now().isoformat()`) are explicit arguments. -/
def resolve_comment (current_user now_iso : String) (store : Store)
    (cid : String) : Bool × Store :=
  (storeHasId store cid, store.map (resolveRow current_user now_iso cid))

/-- `unresolve_comment` of `components/comments.py`: clears the resolution
triple on every row whose id matches; success iff some row matched. -/
def unresolve_comment (store : Store) (cid : String) : Bool × Store :=
  (storeHasId store cid, store.map (unresolveRow cid))

/-- Modelled from the spec: the `database` module whose `save_comment` is
imported by `components/comments.py` is not under `src/`; per the Comment
Store Adapter contract, `put(comment)` fully applies the record (an upsert
keyed by comment id) and a failed put leaves no partial state. This is the
success action of the put; the failure case is the `saveOk = false` branch
of `handle_comment_submission`, which leaves the store untouched. -/
def save_comment (cid : String) (data : Comment) (store : Store) : Store :=
  if storeHasId store cid then
    store.map (fun p => if p.1 == cid then (p.1, data) else p)
  else store ++ [(cid, data)]

/-- The `comment_data` record built by `handle_comment_submission`: a new
comment starts unresolved with both resolution fields null, carries the
submitted (already-trimmed) text, the supplied parent id, and a snapshot
of the session user and role. -/
def mkCommentData (current_user user_role comment_text entity_type
    entity_id : String) (parent_id : Option String) (now : TimeVal) :
    Comment :=
  { entity_type := entity_type, entity_id := entity_id,
    user_name := current_user, text := comment_text, created_at := now,
    parent_id := parent_id, user_role := user_role, resolved := false,
    resolved_by := none, resolved_at := none }

/-- `handle_comment_submission` of `components/comments.py`: builds
`comment_data` and hands it to `save_comment` — with no validation of
`parent_id` whatsoever — reporting success iff the put succeeded (`saveOk`
models the put outcome). Email dispatch is fire-and-forget and affects
neither the result nor the store, so it is omitted. -/
def handle_comment_submission (current_user user_role comment_text
    entity_type entity_id : String) (parent_id : Option String)
    (cid : String) (now : TimeVal) (saveOk : Bool) (store : Store) :
    Bool × Store :=
  if saveOk then
    (true, save_comment cid
      (mkCommentData current_user user_role comment_text entity_type
        entity_id parent_id now) store)
  else (false, store)

/-- The submission branch of `show_comment_form`: the body is posted only
when `comment_text and comment_text.strip()` is truthy, with the trimmed
text and a null parent; otherwise an error message is shown and nothing
is submitted (result `false`, store untouched). -/
def show_comment_form_submit (current_user user_role entity_type
    entity_id : String) (comment_text : String) (cid : String)
    (now : TimeVal) (saveOk : Bool) (store : Store) : Bool × Store :=
  if (!comment_text.data.isEmpty) && (!(pyStrip comment_text).data.isEmpty)
  then
    handle_comment_submission current_user user_role (pyStrip comment_text)
      entity_type entity_id none cid now saveOk store
  else (false, store)

/-- The submission branch of `show_reply_form`: same whitespace guard as
the comment form, with the parent id of the comment being replied to. -/
def show_reply_form_submit (current_user user_role entity_type
    entity_id : String) (reply_text : String) (parent_id : String)
    (cid : String) (now : TimeVal) (saveOk : Bool) (store : Store) :
    Bool × Store :=
  if (!reply_text.data.isEmpty) && (!(pyStrip reply_text).data.isEmpty)
  then
    handle_comment_submission current_user user_role (pyStrip reply_text)
      entity_type entity_id (some parent_id) cid now saveOk store
  else (false, store)

/-- `delete_comment` of `no-more-problems.py`: issues the Supabase delete
filtered by id and returns `True` without inspecting how many rows were
removed; only a store exception (outside the model) yields `False`. -/
def delete_comment (store : Store) (cid : String) : Bool × Store :=
  (true, store.filter (fun p => p.1 != cid))

/-- The first value among directory entries satisfying `p`, mirroring the
early-return `for key, value in user_emails.items()` loops of
`get_user_email`. -/
def findValue (p : String × String → Bool) :
    List (String × String) → Option String
  | [] => none
  | kv :: rest => if p kv then some kv.2 else findValue p rest

/-- `get_user_email` of `email_handler.py`: a falsy username yields `None`;
otherwise the username is stripped and the directory is tried in three
tiers — exact key match, case-insensitive match, then substring
containment in either direction — returning the first hit, and `None`
when every tier misses. -/
def get_user_email (user_emails : List (String × String))
    (username : String) : Option String :=
  if username.data.isEmpty then none
  else
    let username_clean := pyStrip username
    match findValue (fun kv => kv.1 == username_clean) user_emails with
    | some email => some email
    | none =>
      match findValue (fun kv => pyLower kv.1 == pyLower username_clean)
          user_emails with
      | some email => some email
      | none =>
        findValue (fun kv =>
          substrContains (pyLower kv.1) (pyLower username_clean) ||
          substrContains (pyLower username_clean) (pyLower kv.1))
          user_emails

/-- `check_notification_conditions` of `components/comments.py`: false for
a falsy owner, false when the owner is the session user, otherwise true
exactly when the owner resolves to an email address. -/
def check_notification_conditions (current_user : String)
    (user_emails : List (String × String)) (file_owner : Option String) :
    Bool :=
  match file_owner with
  | none => false
  | some owner =>
    if owner.data.isEmpty then false
    else if owner == current_user then false
    else (get_user_email user_emails owner).isSome

/-- The sort key of both comment sorts: `parse_timestamp` of the row's
`created_at`. -/
def commentKey (fromiso : String → Option Nat) (p : String × Comment) :
    Nat :=
  parse_timestamp fromiso p.2.created_at

/-- Stable ascending insertion, modelling Python `sorted` (stable: an
element is placed before the first strictly-greater key, after equals). -/
def insertAsc {α : Type} (key : α → Nat) (x : α) : List α → List α
  | [] => [x]
  | y :: ys => if key x ≤ key y then x :: y :: ys else y :: insertAsc key x ys

/-- Model of Python `sorted(l, key=key)`: stable, ascending. -/
def sortAsc {α : Type} (key : α → Nat) (l : List α) : List α :=
  l.foldr (insertAsc key) []

/-- Stable descending insertion, modelling Python
`sorted(l, key=key, reverse=True)` (equal keys keep their original
order). -/
def insertDesc {α : Type} (key : α → Nat) (x : α) : List α → List α
  | [] => [x]
  | y :: ys => if key y ≤ key x then x :: y :: ys else y :: insertDesc key x ys

/-- Model of Python `sorted(l, key=key, reverse=True)`. -/
def sortDesc {α : Type} (key : α → Nat) (l : List α) : List α :=
  l.foldr (insertDesc key) []

/-- `get_replies` of `components/comments.py`: the rows whose `parent_id`
equals the given id, sorted by creation timestamp ascending. -/
def get_replies (fromiso : String → Option Nat) (parent_id : String)
    (all_comments : Store) : Store :=
  sortAsc (commentKey fromiso)
    (all_comments.filter (fun p => p.2.parent_id == some parent_id))

/-- The traversal of `display_comment_with_replies`: emit the node at its
depth, then each of its direct replies (timestamp ascending) depth-first
at depth + 1. The fuel bounds the reply-chain depth; the top-level caller
passes more fuel than there are rows, which suffices because each level
consumes one stored row. -/
def display_comment_with_replies (fromiso : String → Option Nat)
    (all_comments : Store) :
    Nat → String × Comment → Nat → List (String × Comment × Nat)
  | 0, _, _ => []
  | fuel + 1, node, depth =>
    (node.1, node.2, depth) ::
      (get_replies fromiso node.1 all_comments).flatMap
        (fun r =>
          display_comment_with_replies fromiso all_comments fuel r
            (depth + 1))

/-- The ordered root list built inside `display_comments_list`: rows with
falsy `parent_id`, sorted by timestamp, descending when
`sort_newest_first` and ascending otherwise. -/
def rootsOrdered (fromiso : String → Option Nat)
    (sort_newest_first : Bool) (entity_comments : Store) : Store :=
  let root_comments :=
    entity_comments.filter (fun p => falsyOptStr p.2.parent_id)
  if sort_newest_first then sortDesc (commentKey fromiso) root_comments
  else sortAsc (commentKey fromiso) root_comments

/-- `display_comments_list` of `components/comments.py`: each ordered root
is rendered with its reply tree; the output is the flat (id, comment,
depth) sequence in display order. -/
def display_comments_list (fromiso : String → Option Nat)
    (sort_newest_first : Bool) (entity_comments : Store) :
    List (String × Comment × Nat) :=
  (rootsOrdered fromiso sort_newest_first entity_comments).flatMap
    (fun p =>
      display_comment_with_replies fromiso entity_comments
        (entity_comments.length + 1) p 0)

/-- The resolution-triple invariant: `resolved` is true exactly when both
`resolved_by` and `resolved_at` are non-null, and false exactly when both
are null. -/
def resolutionAtomic (c : Comment) : Bool :=
  if c.resolved then c.resolved_by.isSome && c.resolved_at.isSome
  else c.resolved_by.isNone && c.resolved_at.isNone

/-- A concrete comment record used by witnesses and counterexamples. -/
def sampleComment (eid : String) (pid : Option String) (t : TimeVal) :
    Comment :=
  { entity_type := "task", entity_id := eid, user_name := "bob",
    text := "hello", created_at := t, parent_id := pid,
    user_role := "User", resolved := false, resolved_by := none,
    resolved_at := none }

/-- A comment record after `resolve_comment` acted on `sampleComment`,
used by witnesses. -/
def sampleResolved : Comment :=
  { (sampleComment "E" none TimeVal.null) with
    resolved := true, resolved_by := some "alice", resolved_at := some "t1" }

-- ===========================================================================
-- Helper lemmas
-- ===========================================================================

lemma resolveRow_fst (u t cid : String) (p : String × Comment) :
    (resolveRow u t cid p).1 = p.1 := by
  unfold resolveRow; by_cases h : p.1 == cid <;> simp [h]

lemma unresolveRow_fst (cid : String) (p : String × Comment) :
    (unresolveRow cid p).1 = p.1 := by
  unfold unresolveRow; by_cases h : p.1 == cid <;> simp [h]

lemma resolveRow_idem (u t cid : String) (p : String × Comment) :
    resolveRow u t cid (resolveRow u t cid p) = resolveRow u t cid p := by
  unfold resolveRow; by_cases h : p.1 == cid <;> simp [h]

lemma storeHasId_map_of_fst {f : String × Comment → String × Comment}
    (hf : ∀ p, (f p).1 = p.1) (store : Store) (cid : String) :
    storeHasId (store.map f) cid = storeHasId store cid := by
  induction store with
  | nil => rfl
  | cons hd tl ih =>
    simp only [storeHasId, List.map_cons, List.any_cons] at ih ⊢
    rw [hf hd, ih]

lemma mem_save_comment (cid : String) (data : Comment) (store : Store) :
    (cid, data) ∈ save_comment cid data store := by
  unfold save_comment
  by_cases h : storeHasId store cid
  · rw [if_pos h]
    have h' := h
    simp only [storeHasId, List.any_eq_true] at h'
    obtain ⟨p, hp, hpc⟩ := h'
    have hpe : p.1 = cid := by simpa using hpc
    refine List.mem_map.mpr ⟨p, hp, ?_⟩
    simp [hpc, hpe]
  · rw [if_neg h]
    simp

-- ===========================================================================
-- Claims C10, C6, C3, C2, C5, C4, C8
-- ===========================================================================

/-- Claim C10: `parse_timestamp` is total over null, string, and datetime
inputs — null (and the empty string) maps to `datetime.min`, a string on
which both `fromisoformat` attempts fail maps to `datetime.min`, an
already-parsed datetime passes through unchanged, and no result is ever
below `datetime.min`, so missing or corrupt `created_at` values never
break assembly and always sort as oldest. -/
theorem parse_timestamp_total_spec (fromiso : String → Option Nat)
    (t : TimeVal) :
    parse_timestamp fromiso TimeVal.null = datetimeMin
    ∧ (∀ s : String, s.data = [] →
        parse_timestamp fromiso (TimeVal.str s) = datetimeMin)
    ∧ (∀ s : String, fromiso (replaceZ s) = none → fromiso s = none →
        parse_timestamp fromiso (TimeVal.str s) = datetimeMin)
    ∧ (∀ d : Nat, parse_timestamp fromiso (TimeVal.dt d) = d)
    ∧ datetimeMin ≤ parse_timestamp fromiso t := by
  refine ⟨rfl, ?_, ?_, fun d => rfl, Nat.zero_le _⟩
  · intro s hs; simp [parse_timestamp, hs]
  · intro s h1 h2; simp [parse_timestamp, h1, h2]

/-- Witness for C10 at a malformed timestamp string. -/
theorem parse_timestamp_total_spec_witness :
    parse_timestamp (fun _ => none) (TimeVal.str "not-a-date")
      = datetimeMin :=
  (parse_timestamp_total_spec (fun _ => none)
    (TimeVal.str "not-a-date")).2.2.1 "not-a-date" rfl rfl

/-- Claim C6: `check_notification_conditions` is true exactly when the
entity owner is non-null, differs from the session user, and resolves to
an email address; in particular it is false on the session user
themselves, whatever the contact directory holds. -/
theorem check_notification_conditions_spec (current_user : String)
    (user_emails : List (String × String)) (file_owner : Option String) :
    (check_notification_conditions current_user user_emails file_owner
        = true ↔
      ∃ owner : String, file_owner = some owner ∧ owner ≠ current_user ∧
        (get_user_email user_emails owner).isSome = true)
    ∧ check_notification_conditions current_user user_emails
        (some current_user) = false := by
  constructor
  · cases file_owner with
    | none => simp [check_notification_conditions]
    | some owner =>
      by_cases hempty : owner.data.isEmpty
      · have hmail : get_user_email user_emails owner = none := by
          simp [get_user_email, hempty]
        simp [check_notification_conditions, hempty, hmail]
      · by_cases heq : owner == current_user
        · have hoe : owner = current_user := by simpa using heq
          simp [check_notification_conditions, hempty, heq, hoe]
        · have hne : owner ≠ current_user := by simpa using heq
          simp [check_notification_conditions, hempty, heq, hne]
  · by_cases hempty : current_user.data.isEmpty <;>
      simp [check_notification_conditions, hempty]

/-- Witness for C6: self-notification never fires even with an address on
file. -/
theorem check_notification_conditions_spec_witness :
    check_notification_conditions "alice" [("alice", "alice@x.com")]
      (some "alice") = false :=
  (check_notification_conditions_spec "alice" [("alice", "alice@x.com")]
    (some "alice")).2

/-- Claim C3 counterexample: deleting an id absent from the store (here
the empty store) is reported as success, not as a failure. -/
theorem delete_missing_reported_success :
    (delete_comment [] "missing").1 = true
    ∧ (delete_comment [] "missing").2 = [] := ⟨rfl, rfl⟩

/-- Claim C3 (amended): on the exception-free store path `delete_comment`
always reports success — deleting a nonexistent id is a silent no-op that
leaves the store unchanged — and after any delete no row with the deleted
id remains. -/
theorem delete_comment_semantics (store : Store) (cid : String) :
    (delete_comment store cid).1 = true
    ∧ (storeHasId store cid = false → (delete_comment store cid).2 = store)
    ∧ (∀ q ∈ (delete_comment store cid).2, q.1 ≠ cid) := by
  refine ⟨rfl, ?_, ?_⟩
  · intro h
    simp only [storeHasId, List.any_eq_false] at h
    simp only [delete_comment]
    rw [List.filter_eq_self]
    intro a ha
    have := h a ha
    simpa [bne_iff_ne] using this
  · intro q hq
    have := List.of_mem_filter hq
    simpa [bne_iff_ne] using this

/-- Witness for C3 (amended): deleting an id that is not stored leaves a
one-row store unchanged. -/
theorem delete_comment_semantics_witness :
    (delete_comment [("c1", sampleComment "E" none TimeVal.null)] "zz").2
      = [("c1", sampleComment "E" none TimeVal.null)] :=
  (delete_comment_semantics
    [("c1", sampleComment "E" none TimeVal.null)] "zz").2.1 (by decide)

/-- Claim C2 counterexample: a reply whose `parent_id` points at a comment
stored for a different entity id is accepted — the submission reports
success and mutates the store — instead of failing with
`InvalidParentError` and leaving the store untouched. -/
theorem cross_entity_reply_accepted :
    (handle_comment_submission "bob" "User" "hi" "task" "B" (some "p1")
        "c9" (TimeVal.str "2024-01-02T00:00:00") true
        [("p1", sampleComment "A" none
          (TimeVal.str "2024-01-01T00:00:00"))]).1 = true
    ∧ (handle_comment_submission "bob" "User" "hi" "task" "B" (some "p1")
        "c9" (TimeVal.str "2024-01-02T00:00:00") true
        [("p1", sampleComment "A" none
          (TimeVal.str "2024-01-01T00:00:00"))]).2
      ≠ [("p1", sampleComment "A" none
          (TimeVal.str "2024-01-01T00:00:00"))] := by
  refine ⟨rfl, ?_⟩
  decide

/-- Claim C2 (amended): `handle_comment_submission` performs no parent
validation — for any supplied `parent_id`, when the store put succeeds the
call reports success and the stored record carries that `parent_id`
unchanged, whether or not a matching parent exists or shares the entity
reference; cross-entity replies are excluded only by the UI, which renders
reply forms only beneath comments of the entity being displayed. -/
theorem handle_comment_submission_no_parent_validation
    (current_user user_role comment_text entity_type entity_id p cid :
      String) (now : TimeVal) (store : Store) :
    (handle_comment_submission current_user user_role comment_text
        entity_type entity_id (some p) cid now true store).1 = true
    ∧ (cid, mkCommentData current_user user_role comment_text entity_type
        entity_id (some p) now) ∈
      (handle_comment_submission current_user user_role comment_text
        entity_type entity_id (some p) cid now true store).2 := by
  refine ⟨rfl, ?_⟩
  simp only [handle_comment_submission, if_pos]
  exact mem_save_comment _ _ _

/-- Claim C5: resolving succeeds for any stored comment — already-resolved
ones included — and, with the resolver and clock reading held fixed,
applying `resolve_comment` twice yields exactly the state and result of
applying it once (re-resolving merely rewrites the same triple). -/
theorem resolve_comment_idempotent (current_user now_iso : String)
    (store : Store) (cid : String) :
    (∀ c : Comment, (cid, c) ∈ store →
      (resolve_comment current_user now_iso store cid).1 = true)
    ∧ (resolve_comment current_user now_iso
        (resolve_comment current_user now_iso store cid).2 cid).2
      = (resolve_comment current_user now_iso store cid).2
    ∧ (resolve_comment current_user now_iso
        (resolve_comment current_user now_iso store cid).2 cid).1
      = (resolve_comment current_user now_iso store cid).1 := by
  refine ⟨?_, ?_, ?_⟩
  · intro c hc
    show storeHasId store cid = true
    simp only [storeHasId, List.any_eq_true]
    exact ⟨(cid, c), hc, by simp⟩
  · show (store.map (resolveRow current_user now_iso cid)).map
        (resolveRow current_user now_iso cid)
      = store.map (resolveRow current_user now_iso cid)
    rw [List.map_map]
    exact List.map_congr_left
      (fun q _ => resolveRow_idem current_user now_iso cid q)
  · show storeHasId (store.map (resolveRow current_user now_iso cid)) cid
      = storeHasId store cid
    exact storeHasId_map_of_fst (resolveRow_fst current_user now_iso cid)
      store cid

/-- Witness for C5: resolving a stored comment succeeds. -/
theorem resolve_comment_idempotent_witness :
    (resolve_comment "alice" "2024-01-02T03:04:05"
      [("c1", sampleComment "E" none TimeVal.null)] "c1").1 = true :=
  (resolve_comment_idempotent "alice" "2024-01-02T03:04:05"
    [("c1", sampleComment "E" none TimeVal.null)] "c1").1
    (sampleComment "E" none TimeVal.null) (by simp)

/-- Claim C4: the resolution triple is atomic across the engine's
operations — a freshly created `comment_data` is unresolved with both
resolution fields null, and both `resolve_comment` and
`unresolve_comment` carry a store of atomic rows to a store of atomic
rows, never setting one field of the pair without the other. -/
theorem resolution_triple_atomic (current_user user_role comment_text
    entity_type entity_id : String) (parent_id : Option String)
    (now : TimeVal) (now_iso : String) (store : Store) (cid : String) :
    resolutionAtomic (mkCommentData current_user user_role comment_text
      entity_type entity_id parent_id now) = true
    ∧ ((∀ p ∈ store, resolutionAtomic p.2 = true) →
        ∀ q ∈ (resolve_comment current_user now_iso store cid).2,
          resolutionAtomic q.2 = true)
    ∧ ((∀ p ∈ store, resolutionAtomic p.2 = true) →
        ∀ q ∈ (unresolve_comment store cid).2,
          resolutionAtomic q.2 = true) := by
  refine ⟨rfl, ?_, ?_⟩
  · intro hinv q hq
    simp only [resolve_comment] at hq
    obtain ⟨p, hp, rfl⟩ := List.mem_map.mp hq
    by_cases h : p.1 == cid
    · simp [resolveRow, h, resolutionAtomic]
    · simpa [resolveRow, h] using hinv p hp
  · intro hinv q hq
    simp only [unresolve_comment] at hq
    obtain ⟨p, hp, rfl⟩ := List.mem_map.mp hq
    by_cases h : p.1 == cid
    · simp [unresolveRow, h, resolutionAtomic]
    · simpa [unresolveRow, h] using hinv p hp

/-- Witness for C4: the row produced by resolving a fresh comment carries
the full triple. -/
theorem resolution_triple_atomic_witness :
    resolutionAtomic sampleResolved = true :=
  (resolution_triple_atomic "alice" "User" "hello" "task" "E" none
      TimeVal.null "t1" [("c1", sampleComment "E" none TimeVal.null)]
      "c1").2.1 (by decide) ("c1", sampleResolved) (by decide)

/-- Claim C8: the comment and reply forms post nothing for an empty or
whitespace-only body — the submission branch reports failure and leaves
the store untouched, so `save_comment` is never reached — and when a body
survives trimming, the persisted record's text is exactly the trimmed,
non-empty body. -/
theorem whitespace_body_rejected (current_user user_role entity_type
    entity_id parent cid : String) (comment_text : String) (now : TimeVal)
    (saveOk : Bool) (store : Store) :
    ((pyStrip comment_text).data = [] →
      show_comment_form_submit current_user user_role entity_type
          entity_id comment_text cid now saveOk store = (false, store)
      ∧ show_reply_form_submit current_user user_role entity_type
          entity_id comment_text parent cid now saveOk store
        = (false, store))
    ∧ ((pyStrip comment_text).data ≠ [] →
      (show_comment_form_submit current_user user_role entity_type
          entity_id comment_text cid now true store).2
        = save_comment cid (mkCommentData current_user user_role
            (pyStrip comment_text) entity_type entity_id none now) store
      ∧ (mkCommentData current_user user_role (pyStrip comment_text)
          entity_type entity_id none now).text.data ≠ []) := by
  constructor
  · intro h
    constructor <;>
      simp [show_comment_form_submit, show_reply_form_submit, h]
  · intro h
    have hct : comment_text.data ≠ [] := by
      intro hnil
      exact h (by simp [pyStrip, hnil])
    have h1 : (pyStrip comment_text).data.isEmpty = false := by
      simpa [List.isEmpty_iff] using h
    have h2 : comment_text.data.isEmpty = false := by
      simpa [List.isEmpty_iff] using hct
    refine ⟨?_, h⟩
    simp [show_comment_form_submit, handle_comment_submission, h1, h2]

/-- Witness for C8: a three-space body is rejected and the store is left
untouched. -/
theorem whitespace_body_rejected_witness :
    show_comment_form_submit "bob" "User" "task" "E" "   " "c1"
      TimeVal.null true [] = (false, []) :=
  ((whitespace_body_rejected "bob" "User" "task" "E" "p" "c1" "   "
      TimeVal.null true []).1 (by decide)).1

-- ===========================================================================
-- Contact lookup tiers (C7)
-- ===========================================================================

/-- The exact-match tier of the contact lookup, stated via `List.find?`. -/
def tierExact (user_emails : List (String × String)) (u : String) :
    Option String :=
  (user_emails.find? (fun kv => kv.1 == u)).map Prod.snd

/-- The case-insensitive tier of the contact lookup. -/
def tierCaseless (user_emails : List (String × String)) (u : String) :
    Option String :=
  (user_emails.find? (fun kv => pyLower kv.1 == pyLower u)).map Prod.snd

/-- The bidirectional-substring tier of the contact lookup. -/
def tierSubstr (user_emails : List (String × String)) (u : String) :
    Option String :=
  (user_emails.find? (fun kv =>
    substrContains (pyLower kv.1) (pyLower u) ||
    substrContains (pyLower u) (pyLower kv.1))).map Prod.snd

lemma findValue_eq_find (p : String × String → Bool)
    (l : List (String × String)) :
    findValue p l = (l.find? p).map Prod.snd := by
  induction l with
  | nil => rfl
  | cons kv rest ih =>
    by_cases h : p kv
    · simp [findValue, List.find?_cons, h]
    · simp [findValue, List.find?_cons, h, ih]

lemma get_user_email_eq (user_emails : List (String × String))
    (username : String) (h : username.data ≠ []) :
    get_user_email user_emails username =
      match tierExact user_emails (pyStrip username) with
      | some e => some e
      | none =>
        match tierCaseless user_emails (pyStrip username) with
        | some e => some e
        | none => tierSubstr user_emails (pyStrip username) := by
  have hne : username.data.isEmpty = false := by
    simpa [List.isEmpty_iff] using h
  simp only [get_user_email, hne, Bool.false_eq_true, if_false]
  rw [findValue_eq_find, findValue_eq_find, findValue_eq_find]
  rfl

/-- Claim C7: for a non-empty username, `get_user_email` tries exactly the
three tiers in order on the stripped username — exact key match, then
case-insensitive match, then substring containment in either direction —
returning the address of the first tier that hits, and `none` when every
tier misses (a falsy username is fail-closed to `none` before any tier
runs). -/
theorem get_user_email_three_tiers (user_emails : List (String × String))
    (username : String) (e : String) :
    (username.data ≠ [] →
      tierExact user_emails (pyStrip username) = some e →
      get_user_email user_emails username = some e)
    ∧ (username.data ≠ [] →
      tierExact user_emails (pyStrip username) = none →
      tierCaseless user_emails (pyStrip username) = some e →
      get_user_email user_emails username = some e)
    ∧ (username.data ≠ [] →
      tierExact user_emails (pyStrip username) = none →
      tierCaseless user_emails (pyStrip username) = none →
      get_user_email user_emails username
        = tierSubstr user_emails (pyStrip username))
    ∧ (tierExact user_emails (pyStrip username) = none →
      tierCaseless user_emails (pyStrip username) = none →
      tierSubstr user_emails (pyStrip username) = none →
      get_user_email user_emails username = none) := by
  refine ⟨?_, ?_, ?_, ?_⟩
  · intro h h1
    rw [get_user_email_eq user_emails username h, h1]
  · intro h h1 h2
    rw [get_user_email_eq user_emails username h, h1, h2]
  · intro h h1 h2
    rw [get_user_email_eq user_emails username h, h1, h2]
  · intro h1 h2 h3
    by_cases h : username.data = []
    · have hne : username.data.isEmpty = true := by
        simp [List.isEmpty_iff, h]
      simp [get_user_email, hne]
    · rw [get_user_email_eq user_emails username h, h1, h2, h3]

/-- Witness for C7: a username differing from its directory key only in
case and surrounding whitespace resolves through the case-insensitive
tier after the exact tier misses. -/
theorem get_user_email_three_tiers_witness :
    get_user_email [("Alice", "alice@x.com"), ("bob", "bob@x.com")]
      " ALICE " = some "alice@x.com" :=
  (get_user_email_three_tiers
    [("Alice", "alice@x.com"), ("bob", "bob@x.com")] " ALICE "
    "alice@x.com").2.1 (by decide) (by decide) (by decide)

-- ===========================================================================
-- Sorting lemmas (C9, C1)
-- ===========================================================================

lemma mem_insertAsc {α : Type} (key : α → Nat) (x a : α) (l : List α) :
    a ∈ insertAsc key x l ↔ a = x ∨ a ∈ l := by
  induction l with
  | nil => simp [insertAsc]
  | cons y ys ih =>
    unfold insertAsc
    by_cases h : key x ≤ key y
    · simp [h]
    · simp only [h, if_false, List.mem_cons, ih]
      tauto

lemma mem_insertDesc {α : Type} (key : α → Nat) (x a : α) (l : List α) :
    a ∈ insertDesc key x l ↔ a = x ∨ a ∈ l := by
  induction l with
  | nil => simp [insertDesc]
  | cons y ys ih =>
    unfold insertDesc
    by_cases h : key y ≤ key x
    · simp [h]
    · simp only [h, if_false, List.mem_cons, ih]
      tauto

lemma pairwise_insertAsc {α : Type} (key : α → Nat) (x : α) (l : List α)
    (h : l.Pairwise (fun a b => key a ≤ key b)) :
    (insertAsc key x l).Pairwise (fun a b => key a ≤ key b) := by
  induction l with
  | nil => simp [insertAsc]
  | cons y ys ih =>
    rw [List.pairwise_cons] at h
    obtain ⟨hy, hys⟩ := h
    unfold insertAsc
    by_cases hxy : key x ≤ key y
    · rw [if_pos hxy, List.pairwise_cons]
      refine ⟨?_, ?_⟩
      · intro b hb
        rcases List.mem_cons.mp hb with rfl | hb
        · exact hxy
        · exact le_trans hxy (hy b hb)
      · rw [List.pairwise_cons]
        exact ⟨hy, hys⟩
    · rw [if_neg hxy, List.pairwise_cons]
      refine ⟨?_, ih hys⟩
      intro b hb
      rcases (mem_insertAsc key x b ys).mp hb with rfl | hb
      · exact le_of_not_le hxy
      · exact hy b hb

lemma pairwise_insertDesc {α : Type} (key : α → Nat) (x : α) (l : List α)
    (h : l.Pairwise (fun a b => key b ≤ key a)) :
    (insertDesc key x l).Pairwise (fun a b => key b ≤ key a) := by
  induction l with
  | nil => simp [insertDesc]
  | cons y ys ih =>
    rw [List.pairwise_cons] at h
    obtain ⟨hy, hys⟩ := h
    unfold insertDesc
    by_cases hxy : key y ≤ key x
    · rw [if_pos hxy, List.pairwise_cons]
      refine ⟨?_, ?_⟩
      · intro b hb
        rcases List.mem_cons.mp hb with rfl | hb
        · exact hxy
        · exact le_trans (hy b hb) hxy
      · rw [List.pairwise_cons]
        exact ⟨hy, hys⟩
    · rw [if_neg hxy, List.pairwise_cons]
      refine ⟨?_, ih hys⟩
      intro b hb
      rcases (mem_insertDesc key x b ys).mp hb with rfl | hb
      · exact le_of_not_le hxy
      · exact hy b hb

lemma sortAsc_pairwise {α : Type} (key : α → Nat) (l : List α) :
    (sortAsc key l).Pairwise (fun a b => key a ≤ key b) := by
  induction l with
  | nil => simp [sortAsc]
  | cons x xs ih => exact pairwise_insertAsc key x _ ih

lemma sortDesc_pairwise {α : Type} (key : α → Nat) (l : List α) :
    (sortDesc key l).Pairwise (fun a b => key b ≤ key a) := by
  induction l with
  | nil => simp [sortDesc]
  | cons x xs ih => exact pairwise_insertDesc key x _ ih

lemma mem_sortAsc {α : Type} (key : α → Nat) (a : α) (l : List α) :
    a ∈ sortAsc key l ↔ a ∈ l := by
  induction l with
  | nil => simp [sortAsc]
  | cons x xs ih =>
    show a ∈ insertAsc key x (sortAsc key xs) ↔ _
    rw [mem_insertAsc]
    simp [ih]

lemma mem_sortDesc {α : Type} (key : α → Nat) (a : α) (l : List α) :
    a ∈ sortDesc key l ↔ a ∈ l := by
  induction l with
  | nil => simp [sortDesc]
  | cons x xs ih =>
    show a ∈ insertDesc key x (sortDesc key xs) ↔ _
    rw [mem_insertDesc]
    simp [ih]

-- ===========================================================================
-- Claim C9
-- ===========================================================================

/-- Claim C9: thread assembly ordering — `get_replies` lists the direct
children of a parent in creation-timestamp-ascending order (oldest reply
first); the root sequence of `display_comments_list` is
timestamp-descending in the default newest-first mode and ascending in
the optional mode; and the (comment, depth) output is deterministic for a
fixed input set and ordering mode. -/
theorem thread_assembly_ordering (fromiso : String → Option Nat)
    (pid : String) (all : Store) (newest : Bool) (comments : Store) :
    (get_replies fromiso pid all).Pairwise
      (fun a b => commentKey fromiso a ≤ commentKey fromiso b)
    ∧ (newest = true → (rootsOrdered fromiso newest comments).Pairwise
        (fun a b => commentKey fromiso b ≤ commentKey fromiso a))
    ∧ (newest = false → (rootsOrdered fromiso newest comments).Pairwise
        (fun a b => commentKey fromiso a ≤ commentKey fromiso b))
    ∧ (∀ out₁ out₂ : List (String × Comment × Nat),
        out₁ = display_comments_list fromiso newest comments →
        out₂ = display_comments_list fromiso newest comments →
        out₁ = out₂) := by
  refine ⟨sortAsc_pairwise _ _, ?_, ?_, ?_⟩
  · intro h
    subst h
    exact sortDesc_pairwise _ _
  · intro h
    subst h
    exact sortAsc_pairwise _ _
  · intro out₁ out₂ h1 h2
    rw [h1, h2]

/-- Witness for C9: the newest-first root order on a concrete two-root
store is timestamp-descending. -/
theorem thread_assembly_ordering_witness :
    (rootsOrdered (fun _ => none) true
      [("a", sampleComment "E" none (TimeVal.dt 1)),
       ("b", sampleComment "E" none (TimeVal.dt 2))]).Pairwise
      (fun a b =>
        commentKey (fun _ => none) b ≤ commentKey (fun _ => none) a) :=
  (thread_assembly_ordering (fun _ => none) "p" [] true
    [("a", sampleComment "E" none (TimeVal.dt 1)),
     ("b", sampleComment "E" none (TimeVal.dt 2))]).2.1 rfl

-- ===========================================================================
-- Claim C1
-- ===========================================================================

lemma mem_get_replies (fromiso : String → Option Nat) (pid : String)
    (all : Store) (r : String × Comment)
    (h : r ∈ get_replies fromiso pid all) :
    r ∈ all ∧ r.2.parent_id = some pid := by
  unfold get_replies at h
  rw [mem_sortAsc] at h
  have h1 := List.mem_filter.mp h
  refine ⟨h1.1, ?_⟩
  simpa using h1.2

lemma display_rec_sound (fromiso : String → Option Nat) (all : Store) :
    ∀ (fuel : Nat) (node : String × Comment) (depth : Nat)
      (x : String × Comment × Nat),
      node ∈ all →
      (falsyOptStr node.2.parent_id = true ∨
        ∃ q ∈ all, node.2.parent_id = some q.1) →
      x ∈ display_comment_with_replies fromiso all fuel node depth →
      (x.1, x.2.1) ∈ all ∧
        (falsyOptStr x.2.1.parent_id = true ∨
          ∃ q ∈ all, x.2.1.parent_id = some q.1) := by
  intro fuel
  induction fuel with
  | zero =>
    intro node depth x _ _ hx
    simp [display_comment_with_replies] at hx
  | succ n ih =>
    intro node depth x hnode hpar hx
    simp only [display_comment_with_replies] at hx
    rcases List.mem_cons.mp hx with rfl | hx
    · exact ⟨hnode, hpar⟩
    · rw [List.mem_flatMap] at hx
      obtain ⟨r, hr, hxr⟩ := hx
      have hrm := mem_get_replies fromiso node.1 all r hr
      exact ih r (depth + 1) x hrm.1 (Or.inr ⟨node, hnode, hrm.2⟩) hxr

lemma mem_rootsOrdered (fromiso : String → Option Nat) (newest : Bool)
    (comments : Store) (p : String × Comment)
    (h : p ∈ rootsOrdered fromiso newest comments) :
    p ∈ comments ∧ falsyOptStr p.2.parent_id = true := by
  have h' : p ∈ comments.filter (fun q => falsyOptStr q.2.parent_id) := by
    cases newest
    · simpa [rootsOrdered, mem_sortAsc] using h
    · simpa [rootsOrdered, mem_sortDesc] using h
  have hm := List.mem_filter.mp h'
  exact ⟨hm.1, hm.2⟩

/-- Claim C1 counterexample: a stored reply whose parent id matches no
record in the set (the parent was deleted) is omitted from the listing —
the output for a store holding only that orphaned reply is empty, not a
standalone item at depth 0. -/
theorem orphan_reply_omitted :
    display_comments_list (fun _ => none) true
        [("c1", sampleComment "E" (some "ghost")
          (TimeVal.str "2024-01-01T00:00:00"))] = []
    ∧ ("c1", sampleComment "E" (some "ghost")
          (TimeVal.str "2024-01-01T00:00:00"), 0) ∉
        display_comments_list (fun _ => none) true
          [("c1", sampleComment "E" (some "ghost")
            (TimeVal.str "2024-01-01T00:00:00"))] := by
  refine ⟨rfl, ?_⟩
  decide

/-- Claim C1 (amended): every row of the `display_comments_list` output
comes from the input set, but a non-root whose `parent_id` matches no
stored id is omitted from the output entirely rather than being shown as
a standalone item at depth 0 — the listing covers exactly the roots and
the reply closure reachable from them. -/
theorem display_comments_list_scope (fromiso : String → Option Nat)
    (sortN : Bool) (comments : Store) (cid : String) (c : Comment)
    (d : Nat) :
    ((cid, c, d) ∈ display_comments_list fromiso sortN comments →
      (cid, c) ∈ comments)
    ∧ (falsyOptStr c.parent_id = false →
      (∀ q ∈ comments, c.parent_id ≠ some q.1) →
      (cid, c, d) ∉ display_comments_list fromiso sortN comments) := by
  have main : ∀ x : String × Comment × Nat,
      x ∈ display_comments_list fromiso sortN comments →
      (x.1, x.2.1) ∈ comments ∧
        (falsyOptStr x.2.1.parent_id = true ∨
          ∃ q ∈ comments, x.2.1.parent_id = some q.1) := by
    intro x hx
    unfold display_comments_list at hx
    rw [List.mem_flatMap] at hx
    obtain ⟨root, hroot, hxr⟩ := hx
    have hr := mem_rootsOrdered fromiso sortN comments root hroot
    exact display_rec_sound fromiso comments (comments.length + 1) root 0 x
      hr.1 (Or.inl hr.2) hxr
  constructor
  · intro hmem
    exact (main (cid, c, d) hmem).1
  · intro hfal hnone hmem
    rcases (main (cid, c, d) hmem).2 with h | ⟨q, hq, hpq⟩
    · rw [hfal] at h
      exact Bool.false_ne_true h
    · exact hnone q hq hpq

/-- Witness for C1 (amended): a concrete orphaned reply never appears in
the output. -/
theorem display_comments_list_scope_witness :
    ("c2", sampleComment "E" (some "nope") TimeVal.null, 0) ∉
      display_comments_list (fun _ => none) false
        [("c2", sampleComment "E" (some "nope") TimeVal.null)] :=
  (display_comments_list_scope (fun _ => none) false
    [("c2", sampleComment "E" (some "nope") TimeVal.null)] "c2"
    (sampleComment "E" (some "nope") TimeVal.null) 0).2 (by decide)
    (by decide)
